import Mathlib

/-!
A shallow embedding of the `loop` Go package: a fixed-timestep application
loop runner.  The package keeps all of its runtime data in package-level
variables (`state`, `next`, `step`, `delta`, `lag`, the statistics window);
we gather them into one record, `Loop.LoopState`, and translate each Go
function into a pure function on that record.

Modelling conventions:
* Go `time.Duration` is `int64` nanoseconds; we use `Int` (no value in the
  program approaches the 64-bit range, so wrap-around never matters).
* Go `float64` appears only in the published average frametime; the program
  computes a single division, which we model exactly over `ℚ`.
* A `State` is opaque to the loop (an interface with the five callbacks
  Enter, Leave, React, Update, Render); we identify states by `Nat` and
  record each callback invocation as an event in a trace.  The only effect a
  callback can have on the loop itself is through `Goto`/`Stop`, which write
  the pending-next slot; we model the calls a callback makes as a list of
  commands, one list per iteration.
* Options (`Configure`) are arbitrary fallible closures; we model the
  behaviours the package itself supplies and the claims exercise: failing
  with an error, setting the time step (`TimeStep`), or doing nothing.
  An option may behave differently on each invocation, so it is a function
  of the iteration number.
* The Go loop `for next != nil` need not terminate, so the model takes an
  explicit fuel; running out of fuel is a distinct outcome (`fuelOut`) that
  no theorem identifies with normal termination.
-/

namespace Loop

/-- Go `time.Second` in nanoseconds. -/
def second : Int := 1000000000

/-- Go `time.Millisecond` in nanoseconds. -/
def millisecond : Int := 1000000

/-- Initial value of the package variable `step`: `time.Second / 60`
(integer division, hence 16666666 ns). -/
def defaultStep : Int := second / 60

/-- Go `statsInterval = time.Second / 4`. -/
def statsInterval : Int := second / 4

/-- Go `xrunThreshold = 17 * time.Millisecond`. -/
def xrunThreshold : Int := 17 * millisecond

/-- States are opaque to the loop; we identify them by a number. -/
abbrev StateId := Nat

/-- The package-level mutable variables of the `loop` package, gathered into
one record: `state` and `next` (current and pending state slots), `step`,
`delta` and `lag` (the timing model), and the statistics collector
(`frametime` and `xruns` are the published values, the `interval*` fields
are the Go struct `interval`). -/
structure LoopState where
  state : Option StateId
  next : Option StateId
  step : Int
  delta : Int
  lag : Int
  frametime : ℚ
  xruns : Int
  intervalFrames : Int
  intervalTime : Int
  intervalXruns : Int
deriving DecidableEq

/-- The zero values the package variables hold at process start. -/
def loopInit : LoopState :=
  { state := none, next := none, step := defaultStep, delta := 0, lag := 0,
    frametime := 0, xruns := 0,
    intervalFrames := 0, intervalTime := 0, intervalXruns := 0 }

/-- Go `Running`: `return state != nil`. -/
def Running (s : LoopState) : Bool := s.state.isSome

/-- Go `Step`: `return step`. -/
def Step (s : LoopState) : Int := s.step

/-- Go `Delta`: `return delta`. -/
def Delta (s : LoopState) : Int := s.delta

/-- Go `Lag`: `return lag`. -/
def Lag (s : LoopState) : Int := s.lag

/-- Go `Stats() (frametime float64, overruns int) { return frametime, xruns }`.
The named result parameter `frametime` is a fresh local variable of the
function scope and SHADOWS the package-level variable `frametime`; named
results are zero-initialized in Go, and the body never assigns to it, so the
first returned component is always `0`, not the published window average.
The second returned component reads the package-level `xruns` (the named
result `overruns` does not shadow it). -/
def Stats (s : LoopState) : ℚ × Int := ((0 : ℚ), s.xruns)

/-- Go `stats()`: record one frame of duration `delta` (the function reads
the package variable `delta`) into the measurement window, and publish and
reset the window once its accumulated time reaches `statsInterval`. -/
def stats (s : LoopState) : LoopState :=
  let frames := s.intervalFrames + 1
  let time := s.intervalTime + s.delta
  let xr := if xrunThreshold < s.delta then s.intervalXruns + 1 else s.intervalXruns
  if statsInterval ≤ time then
    { s with frametime := (time : ℚ) / (frames : ℚ), xruns := xr,
             intervalFrames := 0, intervalTime := 0, intervalXruns := 0 }
  else
    { s with intervalFrames := frames, intervalTime := time, intervalXruns := xr }

/-- A call a state callback can make against the loop: Go `Goto(l)` sets
`next = l`; Go `Stop()` sets `next = nil`. -/
inductive Cmd where
  | goto (target : StateId)
  | stop
deriving DecidableEq

/-- The effect on the pending-next slot of the sequence of `Goto`/`Stop`
calls a callback phase makes, in call order: each call overwrites the slot. -/
def applyCmds (cs : List Cmd) (next : Option StateId) : Option StateId :=
  cs.foldl (fun _n c => match c with | .goto t => some t | .stop => none) next

/-- The loop-visible behaviour of one queued `Option` on one invocation:
return an error (aborting the run), set the time step (the pre-supplied
`TimeStep` option: `step = s; return nil`), or succeed with no effect. -/
inductive OptAct where
  | fail (e : String)
  | setStep (d : Int)
  | noop
deriving DecidableEq

/-- An option closure; its behaviour may depend on the invocation number
(the queue is applied once per iteration and never drained). -/
abbrev ConfigOpt := Nat → OptAct

/-- Go `for _, o := range options { err := o(&private{}); if err != nil
{ return err } }`: apply the queued options in append order to the current
step value; the first failure short-circuits, reporting the error together
with the step value reached so far. -/
def applyOpts (opts : List ConfigOpt) (i : Nat) (step : Int) : Except (String × Int) Int :=
  match opts with
  | [] => .ok step
  | o :: rest =>
    match o i with
    | .fail e => .error (e, step)
    | .setStep d => applyOpts rest i d
    | .noop => applyOpts rest i step

/-- Go `for lag >= step { lag -= step; state.React(); state.Update() }`:
the value of `lag` when the drain loop exits.  The Go loop terminates
exactly when `step` is positive or `lag < step` already holds; the
`0 < step` conjunct in the guard makes the Lean function total and agrees
with the source on every input where the source terminates. -/
def drainLag (lag step : Int) : Int :=
  if _h : 0 < step ∧ step ≤ lag then drainLag (lag - step) step else lag
termination_by lag.toNat
decreasing_by simp_wf; omega

/-- The number of passes the drain loop makes (each pass is one
`lag -= step; React; Update`). -/
def drainCount (lag step : Int) : Nat :=
  if _h : 0 < step ∧ step ≤ lag then drainCount (lag - step) step + 1 else 0
termination_by lag.toNat
decreasing_by simp_wf; omega

/-- One callback invocation observed on the trace. -/
inductive Ev where
  | enter (s : StateId)
  | leave (s : StateId)
  | react (s : StateId)
  | update (s : StateId)
  | render (s : StateId)
deriving DecidableEq

/-- The state a trace event was invoked on. -/
def Ev.target : Ev → StateId
  | .enter s => s
  | .leave s => s
  | .react s => s
  | .update s => s
  | .render s => s

/-- Number of `leave` events on a trace. -/
def leaveCount (evs : List Ev) : Nat :=
  evs.countP (fun ev => match ev with | .leave _ => true | _ => false)

/-- Events of the drain loop: each pass calls `state.React()` then
`state.Update()`. -/
def drainEvs (n : StateId) : Nat → List Ev
  | 0 => []
  | k + 1 => .react n :: .update n :: drainEvs n k

/-- Callback events of one loop iteration on state `n`, entered with the
given `lag` and (post-options) `step`: the catch-up `React` when
`lag < step`, then the drain passes, then exactly one `Render`. -/
def iterEvents (n : StateId) (lag step : Int) : List Ev :=
  (if lag < step then [Ev.react n] else []) ++ drainEvs n (drainCount lag step) ++ [Ev.render n]

/-- Outcome of one loop iteration: the Go body either runs to the end or
executes `return err` out of the options loop. -/
inductive StepRes where
  | ok (s : LoopState)
  | err (e : String) (s : LoopState)
deriving DecidableEq

/-- The state after the successful part of one loop iteration, entered on
state `n` with post-options step `st`: drain `lag` (the React/Update loop),
measure `delta = d`, feed `stats()` with the unclamped value, clamp `delta`
to `4*step` (Go: `if delta > 4*step { delta = 4*step }`), add the clamped
value to `lag`, and fold the `Goto`/`Stop` calls `cs` of the callbacks into
the pending slot.  The pending slot is read nowhere inside the Go body, so
folding the commands at the end is faithful. -/
def iterStep (s : LoopState) (n : StateId) (st : Int) (cs : List Cmd) (d : Int) : LoopState :=
  let lag1 := drainLag s.lag st
  let s1 := stats { s with state := some n, step := st, lag := lag1, delta := d }
  let d1 := if 4 * st < d then 4 * st else d
  { s1 with delta := d1, lag := lag1 + d1, next := applyCmds cs s.next }

/-- One iteration of the Go `for next != nil` body (promote `state = next`;
apply pending options, returning their error immediately; catch-up React;
drain React/Update pairs; Render; measure, record and clamp `delta` — see
`iterStep`).  `cmds i` is the sequence of `Goto`/`Stop` calls the callbacks
of iteration `i` make, and `elapsed i` is the wall-clock time `t1.Sub(t0)`
the iteration measures; both are inputs of the model. -/
def iterate (opts : List ConfigOpt) (cmds : Nat → List Cmd) (elapsed : Nat → Int)
    (i : Nat) (s : LoopState) : StepRes × List Ev :=
  match s.next with
  | none => (.ok s, [])
  | some n =>
    match applyOpts opts i s.step with
    | .error (e, st) => (.err e { s with state := some n, step := st }, [])
    | .ok st =>
      (.ok (iterStep s n st (cmds i) (elapsed i)), iterEvents n s.lag st)

/-- Outcome of the whole loop: normal exit, error exit, or fuel exhausted
(the Go loop simply has not stopped yet). -/
inductive RunRes where
  | ok (s : LoopState)
  | err (e : String) (s : LoopState)
  | fuelOut (s : LoopState)
deriving DecidableEq

/-- The stop sequence after the Go loop condition `next != nil` fails:
`state.Leave(); state = nil; return nil`.  When `state == nil` here the Go
code would dereference nil; that situation is unreachable from `Run`, and
the model emits no event there. -/
def runExit (s : LoopState) : RunRes × List Ev :=
  match s.state with
  | some n => (.ok { s with state := none }, [Ev.leave n])
  | none => (.ok { s with state := none }, [])

/-- The Go loop `for next != nil { ... }` followed by the stop sequence
(`runExit`), with explicit fuel bounding the number of iterations; the fuel
is matched first only so that the recursion is structural, and both fuel
branches test `next != nil` exactly as the Go loop condition does. -/
def runLoop (opts : List ConfigOpt) (cmds : Nat → List Cmd) (elapsed : Nat → Int) :
    Nat → Nat → LoopState → RunRes × List Ev
  | 0, _i, s =>
    match s.next with
    | none => runExit s
    | some _ => (.fuelOut s, [])
  | fuel + 1, i, s =>
    match s.next with
    | none => runExit s
    | some _ =>
      match iterate opts cmds elapsed i s with
      | (.ok s1, evs) =>
        let r := runLoop opts cmds elapsed fuel (i + 1) s1
        (r.1, evs ++ r.2)
      | (.err e s1, evs) => (.err e s1, evs)

/-- Go `Run(start)`: fail fast when already running; otherwise call
`start.Enter(); start.React(); start.Update()`, set `next = start` (this
assignment runs after those three calls, so any `Goto`/`Stop` they make is
overwritten), reset `delta, lag = 0, 0`, and enter the main loop. -/
def Run (opts : List ConfigOpt) (cmds : Nat → List Cmd) (elapsed : Nat → Int)
    (fuel : Nat) (start : StateId) (s : LoopState) : RunRes × List Ev :=
  match s.state with
  | some _ => (.err "loop.Run: already running" s, [])
  | none =>
    let r := runLoop opts cmds elapsed fuel 0 { s with next := some start, delta := 0, lag := 0 }
    (r.1, Ev.enter start :: Ev.react start :: Ev.update start :: r.2)

/-! ### Helper lemmas -/

theorem drainLag_lt (lag step : Int) (hs : 0 < step) : drainLag lag step < step := by
  rw [drainLag]
  split
  · exact drainLag_lt (lag - step) step hs
  · next h => omega
termination_by lag.toNat
decreasing_by simp_wf; omega

theorem drainLag_nonneg (lag step : Int) (hs : 0 < step) (hl : 0 ≤ lag) :
    0 ≤ drainLag lag step := by
  rw [drainLag]
  split
  · next h => exact drainLag_nonneg (lag - step) step hs (by omega)
  · exact hl
termination_by lag.toNat
decreasing_by simp_wf; omega

theorem drainCount_self (step : Int) (hs : 0 < step) : drainCount step step = 1 := by
  rw [drainCount, dif_pos ⟨hs, le_refl step⟩, drainCount, dif_neg (by omega)]

theorem stats_state (s : LoopState) : (stats s).state = s.state := by
  simp only [stats]; split <;> rfl

theorem stats_next (s : LoopState) : (stats s).next = s.next := by
  simp only [stats]; split <;> rfl

theorem stats_step (s : LoopState) : (stats s).step = s.step := by
  simp only [stats]; split <;> rfl

theorem stats_delta (s : LoopState) : (stats s).delta = s.delta := by
  simp only [stats]; split <;> rfl

theorem stats_lag (s : LoopState) : (stats s).lag = s.lag := by
  simp only [stats]; split <;> rfl

theorem iterStep_state (s : LoopState) (n : StateId) (st : Int) (cs : List Cmd) (d : Int) :
    (iterStep s n st cs d).state = some n := by
  simp only [iterStep]
  rw [stats_state]

theorem iterStep_delta (s : LoopState) (n : StateId) (st : Int) (cs : List Cmd) (d : Int) :
    (iterStep s n st cs d).delta = if 4 * st < d then 4 * st else d := rfl

theorem iterStep_lag (s : LoopState) (n : StateId) (st : Int) (cs : List Cmd) (d : Int) :
    (iterStep s n st cs d).lag = drainLag s.lag st + (if 4 * st < d then 4 * st else d) := rfl

theorem iterStep_next (s : LoopState) (n : StateId) (st : Int) (cs : List Cmd) (d : Int) :
    (iterStep s n st cs d).next = applyCmds cs s.next := rfl

theorem iterate_ok_eq {opts : List ConfigOpt} {cmds : Nat → List Cmd} {elapsed : Nat → Int}
    {i : Nat} {s : LoopState} {n : StateId} {st : Int}
    (hn : s.next = some n) (ho : applyOpts opts i s.step = .ok st) :
    iterate opts cmds elapsed i s =
      (.ok (iterStep s n st (cmds i) (elapsed i)), iterEvents n s.lag st) := by
  simp only [iterate, hn, ho]

theorem iterate_err_eq {opts : List ConfigOpt} {cmds : Nat → List Cmd} {elapsed : Nat → Int}
    {i : Nat} {s : LoopState} {n : StateId} {st : Int} {e : String}
    (hn : s.next = some n) (ho : applyOpts opts i s.step = .error (e, st)) :
    iterate opts cmds elapsed i s = (.err e { s with state := some n, step := st }, []) := by
  simp only [iterate, hn, ho]

theorem applyOpts_append_fail (pre : List ConfigOpt) (o : ConfigOpt) (post : List ConfigOpt)
    (i : Nat) (step st : Int) (e : String)
    (hpre : applyOpts pre i step = .ok st) (ho : o i = .fail e) :
    applyOpts (pre ++ o :: post) i step = .error (e, st) := by
  induction pre generalizing step with
  | nil =>
    simp only [applyOpts] at hpre
    cases hpre
    simp only [List.nil_append, applyOpts, ho]
  | cons a rest ih =>
    simp only [applyOpts] at hpre
    simp only [List.cons_append, applyOpts]
    cases ha : a i with
    | fail e2 => rw [ha] at hpre; exact absurd hpre (by simp)
    | setStep d => rw [ha] at hpre; exact ih d hpre
    | noop => rw [ha] at hpre; exact ih step hpre

theorem drainEvs_count_update (n : StateId) (k : Nat) :
    (drainEvs n k).count (Ev.update n) = k := by
  induction k with
  | zero => rfl
  | succ k ih => simp [drainEvs, List.count_cons, ih]

theorem drainEvs_count_react (n : StateId) (k : Nat) :
    (drainEvs n k).count (Ev.react n) = k := by
  induction k with
  | zero => rfl
  | succ k ih => simp [drainEvs, List.count_cons, ih]

theorem drainEvs_count_render (n : StateId) (k : Nat) :
    (drainEvs n k).count (Ev.render n) = 0 := by
  induction k with
  | zero => rfl
  | succ k ih => simp [drainEvs, List.count_cons, ih]

theorem drainEvs_no_leave (n : StateId) (k : Nat) : leaveCount (drainEvs n k) = 0 := by
  induction k with
  | zero => rfl
  | succ k ih => simp [drainEvs, leaveCount, List.countP_cons] at ih ⊢; exact ih

theorem drainEvs_target (n : StateId) (k : Nat) :
    ∀ ev ∈ drainEvs n k, ev.target = n := by
  induction k with
  | zero => intro ev h; cases h
  | succ k ih =>
    intro ev h
    simp only [drainEvs, List.mem_cons] at h
    rcases h with h | h | h
    · subst h; rfl
    · subst h; rfl
    · exact ih ev h

theorem leaveCount_append (a b : List Ev) :
    leaveCount (a ++ b) = leaveCount a + leaveCount b := by
  simp [leaveCount, List.countP_append]

theorem iterEvents_no_leave (n : StateId) (lag step : Int) :
    leaveCount (iterEvents n lag step) = 0 := by
  simp only [iterEvents, leaveCount_append, drainEvs_no_leave]
  split <;> simp [leaveCount, List.countP_cons]

theorem iterEvents_target (n : StateId) (lag step : Int) :
    ∀ ev ∈ iterEvents n lag step, ev.target = n := by
  intro ev h
  simp only [iterEvents, List.mem_append] at h
  rcases h with (h | h) | h
  · split at h
    · simp only [List.mem_singleton] at h; subst h; rfl
    · cases h
  · exact drainEvs_target n _ ev h
  · simp only [List.mem_singleton] at h; subst h; rfl

theorem iterate_no_leave (opts : List ConfigOpt) (cmds : Nat → List Cmd) (elapsed : Nat → Int)
    (i : Nat) (s : LoopState) : leaveCount (iterate opts cmds elapsed i s).2 = 0 := by
  cases hn : s.next with
  | none => simp [iterate, hn, leaveCount]
  | some n =>
    cases ho : applyOpts opts i s.step with
    | error p =>
      obtain ⟨e, st⟩ := p
      rw [iterate_err_eq hn ho]
      rfl
    | ok st =>
      rw [iterate_ok_eq hn ho]
      exact iterEvents_no_leave n s.lag st

theorem iterate_ok_some {opts : List ConfigOpt} {cmds : Nat → List Cmd} {elapsed : Nat → Int}
    {i : Nat} {s : LoopState} {n : StateId} {s1 : LoopState} {evs : List Ev}
    (hn : s.next = some n) (h : iterate opts cmds elapsed i s = (.ok s1, evs)) :
    s1.state = some n := by
  cases ho : applyOpts opts i s.step with
  | error p =>
    obtain ⟨e, st⟩ := p
    rw [iterate_err_eq hn ho] at h
    simp at h
  | ok st =>
    rw [iterate_ok_eq hn ho] at h
    injection h with h1 h2
    injection h1 with h1
    subst h1
    exact iterStep_state s n st (cmds i) (elapsed i)

theorem iterate_err_some {opts : List ConfigOpt} {cmds : Nat → List Cmd} {elapsed : Nat → Int}
    {i : Nat} {s s1 : LoopState} {e : String} {evs : List Ev}
    (h : iterate opts cmds elapsed i s = (.err e s1, evs)) : ∃ n, s1.state = some n := by
  cases hn : s.next with
  | none => simp [iterate, hn] at h
  | some n =>
    cases ho : applyOpts opts i s.step with
    | error p =>
      obtain ⟨e2, st⟩ := p
      rw [iterate_err_eq hn ho] at h
      injection h with h1 h2
      injection h1 with he hs
      subst hs
      exact ⟨n, rfl⟩
    | ok st =>
      rw [iterate_ok_eq hn ho] at h
      simp at h

theorem runLoop_exit {opts : List ConfigOpt} {cmds : Nat → List Cmd} {elapsed : Nat → Int}
    {fuel i : Nat} {s : LoopState} {n : StateId}
    (hnext : s.next = none) (hstate : s.state = some n) :
    runLoop opts cmds elapsed fuel i s = (.ok { s with state := none }, [Ev.leave n]) := by
  cases fuel <;> simp only [runLoop, hnext, runExit, hstate]

theorem runLoop_exit_none {opts : List ConfigOpt} {cmds : Nat → List Cmd} {elapsed : Nat → Int}
    {fuel i : Nat} {s : LoopState}
    (hnext : s.next = none) (hstate : s.state = none) :
    runLoop opts cmds elapsed fuel i s = (.ok { s with state := none }, []) := by
  cases fuel <;> simp only [runLoop, hnext, runExit, hstate]

theorem runLoop_zero {opts : List ConfigOpt} {cmds : Nat → List Cmd} {elapsed : Nat → Int}
    {i : Nat} {s : LoopState} {m : StateId} (hnext : s.next = some m) :
    runLoop opts cmds elapsed 0 i s = (.fuelOut s, []) := by
  simp only [runLoop, hnext]

theorem runLoop_succ_ok {opts : List ConfigOpt} {cmds : Nat → List Cmd} {elapsed : Nat → Int}
    {fuel i : Nat} {s s1 : LoopState} {m : StateId} {evs : List Ev}
    (hnext : s.next = some m) (hiter : iterate opts cmds elapsed i s = (.ok s1, evs)) :
    runLoop opts cmds elapsed (fuel + 1) i s =
      ((runLoop opts cmds elapsed fuel (i + 1) s1).1,
       evs ++ (runLoop opts cmds elapsed fuel (i + 1) s1).2) := by
  simp only [runLoop, hnext, hiter]

theorem runLoop_succ_err {opts : List ConfigOpt} {cmds : Nat → List Cmd} {elapsed : Nat → Int}
    {fuel i : Nat} {s s1 : LoopState} {m : StateId} {e : String} {evs : List Ev}
    (hnext : s.next = some m) (hiter : iterate opts cmds elapsed i s = (.err e s1, evs)) :
    runLoop opts cmds elapsed (fuel + 1) i s = (.err e s1, evs) := by
  simp only [runLoop, hnext, hiter]

theorem runLoop_ok_inv (opts : List ConfigOpt) (cmds : Nat → List Cmd) (elapsed : Nat → Int) :
    ∀ (fuel i : Nat) (s s1 : LoopState) (evs : List Ev),
      runLoop opts cmds elapsed fuel i s = (.ok s1, evs) →
      (s.next = none → s.state.isSome) →
      s1.state = none ∧ leaveCount evs = 1 ∧ ∃ n, evs.getLast? = some (Ev.leave n) := by
  intro fuel
  induction fuel with
  | zero =>
    intro i s s1 evs h hinv
    cases hnext : s.next with
    | none =>
      obtain ⟨n, hn⟩ := Option.isSome_iff_exists.mp (hinv hnext)
      rw [runLoop_exit hnext hn] at h
      injection h with h1 h2
      injection h1 with h1
      subst h1
      subst h2
      exact ⟨rfl, rfl, n, rfl⟩
    | some m =>
      rw [runLoop_zero hnext] at h
      simp at h
  | succ fuel ih =>
    intro i s s1 evs h hinv
    cases hnext : s.next with
    | none =>
      obtain ⟨n, hn⟩ := Option.isSome_iff_exists.mp (hinv hnext)
      rw [runLoop_exit hnext hn] at h
      injection h with h1 h2
      injection h1 with h1
      subst h1
      subst h2
      exact ⟨rfl, rfl, n, rfl⟩
    | some m =>
      cases hiter : iterate opts cmds elapsed i s with
      | mk r evs2 =>
        cases r with
        | ok s2 =>
          rw [runLoop_succ_ok hnext hiter] at h
          injection h with h1 h2
          have hre : runLoop opts cmds elapsed fuel (i + 1) s2 =
              (.ok s1, (runLoop opts cmds elapsed fuel (i + 1) s2).2) := by
            rw [← h1]
          have hinv2 : s2.next = none → s2.state.isSome := by
            intro _
            rw [iterate_ok_some hnext hiter]
            rfl
          obtain ⟨ha, hb, n, hc⟩ := ih (i + 1) s2 s1 _ hre hinv2
          have hnl : leaveCount evs2 = 0 := by
            have := iterate_no_leave opts cmds elapsed i s
            rw [hiter] at this
            exact this
          have hne : (runLoop opts cmds elapsed fuel (i + 1) s2).2 ≠ [] := by
            intro hemp
            rw [hemp] at hc
            cases hc
          subst h2
          refine ⟨ha, ?_, n, ?_⟩
          · rw [leaveCount_append, hnl, hb]
          · rw [List.getLast?_append_of_ne_nil _ hne, hc]
        | err e s2 =>
          rw [runLoop_succ_err hnext hiter] at h
          simp at h

theorem runLoop_err_some (opts : List ConfigOpt) (cmds : Nat → List Cmd) (elapsed : Nat → Int) :
    ∀ (fuel i : Nat) (s s1 : LoopState) (e : String) (evs : List Ev),
      runLoop opts cmds elapsed fuel i s = (.err e s1, evs) → ∃ n, s1.state = some n := by
  intro fuel
  induction fuel with
  | zero =>
    intro i s s1 e evs h
    cases hnext : s.next with
    | none =>
      cases hstate : s.state with
      | none => rw [runLoop_exit_none hnext hstate] at h; simp at h
      | some n => rw [runLoop_exit hnext hstate] at h; simp at h
    | some m => rw [runLoop_zero hnext] at h; simp at h
  | succ fuel ih =>
    intro i s s1 e evs h
    cases hnext : s.next with
    | none =>
      cases hstate : s.state with
      | none => rw [runLoop_exit_none hnext hstate] at h; simp at h
      | some n => rw [runLoop_exit hnext hstate] at h; simp at h
    | some m =>
      cases hiter : iterate opts cmds elapsed i s with
      | mk r evs2 =>
        cases r with
        | ok s2 =>
          rw [runLoop_succ_ok hnext hiter] at h
          injection h with h1 h2
          have hre : runLoop opts cmds elapsed fuel (i + 1) s2 =
              (.err e s1, (runLoop opts cmds elapsed fuel (i + 1) s2).2) := by
            rw [← h1]
          exact ih (i + 1) s2 s1 e _ hre
        | err e2 s2 =>
          rw [runLoop_succ_err hnext hiter] at h
          injection h with h1 h2
          injection h1 with he hs
          subst he
          subst hs
          exact iterate_err_some hiter

theorem iterEvents_count_update (n : StateId) (lag st : Int) :
    (iterEvents n lag st).count (Ev.update n) = drainCount lag st := by
  simp only [iterEvents, List.count_append, drainEvs_count_update]
  split <;> simp [List.count_cons]

theorem iterEvents_count_react (n : StateId) (lag st : Int) :
    (iterEvents n lag st).count (Ev.react n) =
      drainCount lag st + (if lag < st then 1 else 0) := by
  simp only [iterEvents, List.count_append, drainEvs_count_react]
  split <;> rename_i h
  · simp [h, List.count_cons]
    omega
  · simp [h, List.count_cons]

theorem iterEvents_count_render (n : StateId) (lag st : Int) :
    (iterEvents n lag st).count (Ev.render n) = 1 := by
  simp only [iterEvents, List.count_append, drainEvs_count_render]
  split <;> simp [List.count_cons]

theorem applyCmds_append_goto (cs : List Cmd) (m : StateId) (b : Option StateId) :
    applyCmds (cs ++ [Cmd.goto m]) b = some m := by
  simp [applyCmds, List.foldl_append]

theorem applyCmds_append_stop (cs : List Cmd) (b : Option StateId) :
    applyCmds (cs ++ [Cmd.stop]) b = none := by
  simp [applyCmds, List.foldl_append]

theorem Run_idle {opts : List ConfigOpt} {cmds : Nat → List Cmd} {elapsed : Nat → Int}
    {fuel : Nat} {start : StateId} {s : LoopState} (h0 : s.state = none) :
    Run opts cmds elapsed fuel start s =
      ((runLoop opts cmds elapsed fuel 0
          { s with next := some start, delta := 0, lag := 0 }).1,
       Ev.enter start :: Ev.react start :: Ev.update start ::
         (runLoop opts cmds elapsed fuel 0
           { s with next := some start, delta := 0, lag := 0 }).2) := by
  simp only [Run, h0]

/-! ### Claim theorems -/

/-- C1 (code bug evidence): one recorded frame of 250 ms completes a
measurement window, so the package variable `frametime` is set to the
window average 250000000 ns, which is nonzero — yet `Stats` returns `0`
for its frametime component, because its named result parameter shadows
the package variable.  The claim (and the doc comment of `Stats`) says the
first component is the last completed window average. -/
theorem stats_frametime_shadowed :
    (stats { loopInit with delta := 250000000 }).frametime = 250000000 ∧
    (stats { loopInit with delta := 250000000 }).xruns = 1 ∧
    Stats (stats { loopInit with delta := 250000000 }) = ((0 : ℚ), 1) ∧
    (250000000 : ℚ) ≠ 0 := by
  refine ⟨?_, ?_, ?_, by norm_num⟩ <;>
    norm_num [stats, Stats, loopInit, statsInterval, xrunThreshold, second, millisecond]

/-- C2: calling `Run` while a state is current returns the
"already running" error, invokes no callback (empty trace) and leaves the
whole loop state — current, pending, step, delta, lag and all statistics
fields — untouched. -/
theorem run_reentrancy_guard (opts : List ConfigOpt) (cmds : Nat → List Cmd)
    (elapsed : Nat → Int) (fuel : Nat) (start : StateId) (s : LoopState) (x : StateId)
    (h : s.state = some x) :
    Run opts cmds elapsed fuel start s = (.err "loop.Run: already running" s, []) := by
  simp only [Run, h]

/-- C3: when a queued option fails during the apply phase of an iteration,
the run returns that exact error immediately: the options after it are
never applied (they do not appear in the result), no callback of the
iteration runs (the trace is empty — no React, Update, Render), and the
promoted current state is left in place without `Leave()`. -/
theorem config_error_aborts (pre : List ConfigOpt) (o : ConfigOpt) (post : List ConfigOpt)
    (cmds : Nat → List Cmd) (elapsed : Nat → Int) (fuel i : Nat) (s : LoopState)
    (n : StateId) (st : Int) (e : String)
    (hn : s.next = some n) (hpre : applyOpts pre i s.step = .ok st) (ho : o i = .fail e) :
    runLoop (pre ++ o :: post) cmds elapsed (fuel + 1) i s =
      (.err e { s with state := some n, step := st }, []) := by
  have happ := applyOpts_append_fail pre o post i s.step st e hpre ho
  exact runLoop_succ_err hn (iterate_err_eq hn happ)

/-- C4: after the drain loop of an iteration the residual lag satisfies
`0 ≤ lag < step` (for positive step and non-negative incoming lag), and
when the incoming lag equals the step exactly one more drain pass — one
React/Update pair — runs, because the loop condition is `lag >= step`. -/
theorem drain_invariant (lag step : Int) (hs : 0 < step) (hl : 0 ≤ lag) :
    0 ≤ drainLag lag step ∧ drainLag lag step < step ∧ drainCount step step = 1 :=
  ⟨drainLag_nonneg lag step hs hl, drainLag_lt lag step hs, drainCount_self step hs⟩

/-- C5: for any measured elapsed duration of an iteration, the stored
delta — returned by `Delta` until the next measurement — is
`min(elapsed, 4*step)`, in particular never more than `4*step`, and the
new lag is the drained lag increased by exactly that clamped delta. -/
theorem delta_clamped (opts : List ConfigOpt) (cmds : Nat → List Cmd) (elapsed : Nat → Int)
    (i : Nat) (s s1 : LoopState) (n : StateId) (st : Int) (evs : List Ev)
    (hn : s.next = some n) (ho : applyOpts opts i s.step = .ok st)
    (hit : iterate opts cmds elapsed i s = (.ok s1, evs)) :
    Delta s1 = min (elapsed i) (4 * st) ∧ Delta s1 ≤ 4 * st ∧
      s1.lag = drainLag s.lag st + Delta s1 := by
  rw [iterate_ok_eq hn ho] at hit
  injection hit with h1 h2
  injection h1 with h1
  subst h1
  refine ⟨?_, ?_, ?_⟩
  · show (iterStep s n st (cmds i) (elapsed i)).delta = _
    rw [iterStep_delta, min_def]
    split <;> split <;> omega
  · show (iterStep s n st (cmds i) (elapsed i)).delta ≤ _
    rw [iterStep_delta]
    split <;> omega
  · show (iterStep s n st (cmds i) (elapsed i)).lag = _
    rw [iterStep_lag]
    rfl

/-- C6: in one iteration the number of Update calls equals the number of
drain-phase React calls (`drainCount`), one additional unpaired React
happens exactly when the incoming lag is below the step, and Render runs
exactly once regardless of the number of updates. -/
theorem react_update_pairing (opts : List ConfigOpt) (cmds : Nat → List Cmd)
    (elapsed : Nat → Int) (i : Nat) (s s1 : LoopState) (n : StateId) (st : Int)
    (evs : List Ev)
    (hn : s.next = some n) (ho : applyOpts opts i s.step = .ok st)
    (hit : iterate opts cmds elapsed i s = (.ok s1, evs)) :
    evs.count (Ev.update n) = drainCount s.lag st ∧
    evs.count (Ev.react n) = drainCount s.lag st + (if s.lag < st then 1 else 0) ∧
    evs.count (Ev.render n) = 1 := by
  rw [iterate_ok_eq hn ho] at hit
  injection hit with h1 h2
  subst h2
  exact ⟨iterEvents_count_update n s.lag st, iterEvents_count_react n s.lag st,
    iterEvents_count_render n s.lag st⟩

/-- C7: during an iteration the current state never changes (all callbacks
of the iteration target the promoted state, and the state slot still holds
it at the end); the pending slot after the iteration is decided by the
last `Goto`/`Stop` call the callbacks made — a trailing `Goto m` makes the
next promoted state `m` whatever came before it, and a trailing `Stop`
empties the pending slot, after which the loop exits at the top of the
next iteration, whatever fuel remains. -/
theorem goto_last_write_wins (opts : List ConfigOpt) (cmds : Nat → List Cmd)
    (elapsed : Nat → Int) (i : Nat) (s s1 : LoopState) (n : StateId) (st : Int)
    (evs : List Ev)
    (hn : s.next = some n) (ho : applyOpts opts i s.step = .ok st)
    (hit : iterate opts cmds elapsed i s = (.ok s1, evs)) :
    s1.state = some n ∧
    (∀ ev ∈ evs, ev.target = n) ∧
    (∀ pre m, cmds i = pre ++ [Cmd.goto m] → s1.next = some m) ∧
    (∀ pre, cmds i = pre ++ [Cmd.stop] → s1.next = none) ∧
    (∀ pre fuel, cmds i = pre ++ [Cmd.stop] →
      runLoop opts cmds elapsed fuel (i + 1) s1 =
        (.ok { s1 with state := none }, [Ev.leave n])) := by
  rw [iterate_ok_eq hn ho] at hit
  injection hit with h1 h2
  injection h1 with h1
  subst h1
  subst h2
  refine ⟨iterStep_state s n st (cmds i) (elapsed i), iterEvents_target n s.lag st,
    ?_, ?_, ?_⟩
  · intro pre m hcm
    rw [iterStep_next, hcm, applyCmds_append_goto]
  · intro pre hcm
    rw [iterStep_next, hcm, applyCmds_append_stop]
  · intro pre fuel hcm
    have hnone : (iterStep s n st (cmds i) (elapsed i)).next = none := by
      rw [iterStep_next, hcm, applyCmds_append_stop]
    exact runLoop_exit hnone (iterStep_state s n st (cmds i) (elapsed i))

/-- C8: recording the measured delta of an iteration adds one frame and
the (unclamped) delta to the window, counts an overrun exactly when the
delta strictly exceeds the 17 ms threshold, and — once the accumulated
window time reaches 250 ms — publishes the exact average
`window time / frames` and the window overrun count, then zeroes all three
window fields; below the threshold the published values are untouched. -/
theorem stats_window_update (opts : List ConfigOpt) (cmds : Nat → List Cmd)
    (elapsed : Nat → Int) (i : Nat) (s s1 : LoopState) (n : StateId) (st : Int)
    (evs : List Ev)
    (hn : s.next = some n) (ho : applyOpts opts i s.step = .ok st)
    (hit : iterate opts cmds elapsed i s = (.ok s1, evs)) :
    (statsInterval ≤ s.intervalTime + elapsed i →
      s1.intervalFrames = 0 ∧ s1.intervalTime = 0 ∧ s1.intervalXruns = 0 ∧
      s1.frametime =
        ((s.intervalTime + elapsed i : Int) : ℚ) / ((s.intervalFrames + 1 : Int) : ℚ) ∧
      s1.xruns = s.intervalXruns + (if xrunThreshold < elapsed i then 1 else 0)) ∧
    (s.intervalTime + elapsed i < statsInterval →
      s1.intervalFrames = s.intervalFrames + 1 ∧
      s1.intervalTime = s.intervalTime + elapsed i ∧
      s1.intervalXruns = s.intervalXruns + (if xrunThreshold < elapsed i then 1 else 0) ∧
      s1.frametime = s.frametime ∧ s1.xruns = s.xruns) := by
  rw [iterate_ok_eq hn ho] at hit
  injection hit with h1 h2
  injection h1 with h1
  subst h1
  constructor
  · intro hcond
    simp only [iterStep, stats]
    rw [if_pos (by exact hcond)]
    refine ⟨rfl, rfl, rfl, rfl, ?_⟩
    split <;> simp
  · intro hcond
    simp only [iterStep, stats]
    rw [if_neg (by omega)]
    refine ⟨rfl, rfl, ?_, rfl, rfl⟩
    split <;> simp

/-- C9: a run that returns success exited the loop because the pending
slot became empty; at that point `Leave()` ran exactly once (it is the
last event of the whole trace), the current slot was cleared, and
`Running` reports false afterward. -/
theorem run_natural_exit (opts : List ConfigOpt) (cmds : Nat → List Cmd)
    (elapsed : Nat → Int) (fuel : Nat) (start : StateId) (s s1 : LoopState)
    (evs : List Ev)
    (h : Run opts cmds elapsed fuel start s = (.ok s1, evs)) :
    Running s1 = false ∧ leaveCount evs = 1 ∧ ∃ n, evs.getLast? = some (Ev.leave n) := by
  cases hstate : s.state with
  | some x =>
    simp only [Run, hstate] at h
    simp at h
  | none =>
    rw [Run_idle hstate] at h
    injection h with h1 h2
    have hre : runLoop opts cmds elapsed fuel 0
        { s with next := some start, delta := 0, lag := 0 } =
        (.ok s1, (runLoop opts cmds elapsed fuel 0
          { s with next := some start, delta := 0, lag := 0 }).2) := by
      rw [← h1]
    have hinv : ({ s with next := some start, delta := 0, lag := 0 } : LoopState).next = none →
        ({ s with next := some start, delta := 0, lag := 0 } : LoopState).state.isSome := by
      intro hc
      simp at hc
    obtain ⟨ha, hb, n, hc⟩ := runLoop_ok_inv opts cmds elapsed fuel 0 _ s1 _ hre hinv
    subst h2
    have hne : (runLoop opts cmds elapsed fuel 0
        { s with next := some start, delta := 0, lag := 0 }).2 ≠ [] := by
      intro hemp
      rw [hemp] at hc
      cases hc
    refine ⟨?_, ?_, n, ?_⟩
    · simp [Running, ha]
    · simp only [leaveCount, List.countP_cons] at hb ⊢
      simpa using hb
    · show (Ev.enter start :: Ev.react start :: Ev.update start ::
        (runLoop opts cmds elapsed fuel 0
          { s with next := some start, delta := 0, lag := 0 }).2).getLast? = _
      rw [show (Ev.enter start :: Ev.react start :: Ev.update start ::
        (runLoop opts cmds elapsed fuel 0
          { s with next := some start, delta := 0, lag := 0 }).2) =
        [Ev.enter start, Ev.react start, Ev.update start] ++
        (runLoop opts cmds elapsed fuel 0
          { s with next := some start, delta := 0, lag := 0 }).2 from rfl]
      rw [List.getLast?_append_of_ne_nil _ hne]
      exact hc

/-- C10: when `Run` (entered while idle) returns with an error — in this
model only a failed configuration action produces one — the current slot is
left occupied: `Running` still reports true on the returned state, and any
later `Run` on that state, with any arguments, fails with the reentrancy
error without doing anything. -/
theorem config_failure_wedges (opts : List ConfigOpt) (cmds : Nat → List Cmd)
    (elapsed : Nat → Int) (fuel : Nat) (start : StateId) (s s1 : LoopState)
    (e : String) (evs : List Ev)
    (h0 : s.state = none)
    (h : Run opts cmds elapsed fuel start s = (.err e s1, evs)) :
    Running s1 = true ∧
    ∀ (opts2 : List ConfigOpt) (cmds2 : Nat → List Cmd) (elapsed2 : Nat → Int)
      (fuel2 : Nat) (start2 : StateId),
      Run opts2 cmds2 elapsed2 fuel2 start2 s1 =
        (.err "loop.Run: already running" s1, []) := by
  rw [Run_idle h0] at h
  injection h with h1 h2
  have hre : runLoop opts cmds elapsed fuel 0
      { s with next := some start, delta := 0, lag := 0 } =
      (.err e s1, (runLoop opts cmds elapsed fuel 0
        { s with next := some start, delta := 0, lag := 0 }).2) := by
    rw [← h1]
  obtain ⟨n, hn⟩ := runLoop_err_some opts cmds elapsed fuel 0 _ s1 e _ hre
  constructor
  · simp [Running, hn]
  · intro opts2 cmds2 elapsed2 fuel2 start2
    simp only [Run, hn]

/-! ### Witnesses -/

/-- Witness for C2 at a concrete already-running state. -/
theorem run_reentrancy_guard_w :
    Run [] (fun _ => []) (fun _ => 0) 3 7 { loopInit with state := some 5 } =
      (.err "loop.Run: already running" { loopInit with state := some 5 }, []) :=
  run_reentrancy_guard [] (fun _ => []) (fun _ => 0) 3 7 { loopInit with state := some 5 } 5 rfl

/-- Witness for C3: a queue of a step-setting option, a failing option and a
further option aborts the iteration with the failing option's error. -/
theorem config_error_aborts_w :
    runLoop ([fun _ => OptAct.setStep 5] ++
        (fun _ => OptAct.fail "boom") :: [fun _ => OptAct.noop])
      (fun _ => []) (fun _ => 0) 1 0 { loopInit with next := some 4 } =
      (.err "boom" { loopInit with next := some 4, state := some 4, step := 5 }, []) :=
  config_error_aborts [fun _ => OptAct.setStep 5] (fun _ => OptAct.fail "boom")
    [fun _ => OptAct.noop] (fun _ => []) (fun _ => 0) 0 0 { loopInit with next := some 4 }
    4 5 "boom" rfl rfl rfl

/-- Witness for C4 at lag 5, step 3. -/
theorem drain_invariant_w :
    0 ≤ drainLag 5 3 ∧ drainLag 5 3 < 3 ∧ drainCount 3 3 = 1 :=
  drain_invariant 5 3 (by decide) (by decide)

/-- Witness for C5: step 3, elapsed 100, so the clamp to 12 fires. -/
theorem delta_clamped_w :
    Delta (iterStep { loopInit with next := some 2 } 2 3 [] 100) = min 100 (4 * 3) ∧
    Delta (iterStep { loopInit with next := some 2 } 2 3 [] 100) ≤ 4 * 3 ∧
    (iterStep { loopInit with next := some 2 } 2 3 [] 100).lag =
      drainLag 0 3 + Delta (iterStep { loopInit with next := some 2 } 2 3 [] 100) :=
  delta_clamped [fun _ => OptAct.setStep 3] (fun _ => []) (fun _ => 100) 0
    { loopInit with next := some 2 } (iterStep { loopInit with next := some 2 } 2 3 [] 100)
    2 3 (iterEvents 2 0 3) rfl rfl rfl

/-- Witness for C6: incoming lag 7, step 3, so two drain passes and no
catch-up React. -/
theorem react_update_pairing_w :
    (iterEvents 2 7 3).count (Ev.update 2) = drainCount 7 3 ∧
    (iterEvents 2 7 3).count (Ev.react 2) = drainCount 7 3 + (if (7 : Int) < 3 then 1 else 0) ∧
    (iterEvents 2 7 3).count (Ev.render 2) = 1 :=
  react_update_pairing [fun _ => OptAct.setStep 3] (fun _ => []) (fun _ => 0) 0
    { loopInit with next := some 2, lag := 7 }
    (iterStep { loopInit with next := some 2, lag := 7 } 2 3 [] 0)
    2 3 (iterEvents 2 7 3) rfl rfl rfl

/-- Witness for C7: the callbacks call Goto 9, Stop, Goto 5; the pending
slot ends as state 5 and the current state is untouched. -/
theorem goto_last_write_wins_w :
    (iterStep { loopInit with next := some 2 } 2 3
      [Cmd.goto 9, Cmd.stop, Cmd.goto 5] 0).state = some 2 ∧
    (iterStep { loopInit with next := some 2 } 2 3
      [Cmd.goto 9, Cmd.stop, Cmd.goto 5] 0).next = some 5 :=
  ⟨(goto_last_write_wins [fun _ => OptAct.setStep 3]
      (fun _ => [Cmd.goto 9, Cmd.stop, Cmd.goto 5]) (fun _ => 0) 0
      { loopInit with next := some 2 }
      (iterStep { loopInit with next := some 2 } 2 3 [Cmd.goto 9, Cmd.stop, Cmd.goto 5] 0)
      2 3 (iterEvents 2 0 3) rfl rfl rfl).1,
   (goto_last_write_wins [fun _ => OptAct.setStep 3]
      (fun _ => [Cmd.goto 9, Cmd.stop, Cmd.goto 5]) (fun _ => 0) 0
      { loopInit with next := some 2 }
      (iterStep { loopInit with next := some 2 } 2 3 [Cmd.goto 9, Cmd.stop, Cmd.goto 5] 0)
      2 3 (iterEvents 2 0 3) rfl rfl rfl).2.2.1 [Cmd.goto 9, Cmd.stop] 5 rfl⟩

/-- Witness for C8: a single 300 ms frame completes the window: the window
zeroes and the published values become the exact average and one overrun. -/
theorem stats_window_update_w :
    (iterStep { loopInit with next := some 2 } 2 defaultStep [] 300000000).intervalFrames = 0 ∧
    (iterStep { loopInit with next := some 2 } 2 defaultStep [] 300000000).intervalTime = 0 ∧
    (iterStep { loopInit with next := some 2 } 2 defaultStep [] 300000000).intervalXruns = 0 ∧
    (iterStep { loopInit with next := some 2 } 2 defaultStep [] 300000000).frametime =
      ((0 + 300000000 : Int) : ℚ) / ((0 + 1 : Int) : ℚ) ∧
    (iterStep { loopInit with next := some 2 } 2 defaultStep [] 300000000).xruns =
      0 + (if xrunThreshold < (300000000 : Int) then 1 else 0) := by
  have h := stats_window_update [] (fun _ => []) (fun _ => 300000000) 0
    { loopInit with next := some 2 }
    (iterStep { loopInit with next := some 2 } 2 defaultStep [] 300000000)
    2 defaultStep (iterEvents 2 0 defaultStep) rfl rfl rfl
  exact h.1 (by decide)

/-- Witness for C9: a one-iteration run whose callbacks call Stop; it exits
with the current slot cleared and exactly one Leave, the last event. -/
theorem run_natural_exit_w :
    Running ⟨none, none, 3, 0, 0, 0, 0, 1, 0, 0⟩ = false ∧
    leaveCount [Ev.enter 1, Ev.react 1, Ev.update 1, Ev.react 1, Ev.render 1, Ev.leave 1] = 1 := by
  have h := run_natural_exit [fun _ => OptAct.setStep 3] (fun _ => [Cmd.stop]) (fun _ => 0)
    1 1 loopInit ⟨none, none, 3, 0, 0, 0, 0, 1, 0, 0⟩
    [Ev.enter 1, Ev.react 1, Ev.update 1, Ev.react 1, Ev.render 1, Ev.leave 1]
    (by simp [Run, runLoop, runExit, iterate, iterStep, applyOpts, stats, iterEvents,
      drainEvs, drainLag, drainCount, applyCmds, loopInit, statsInterval, xrunThreshold,
      second, millisecond, defaultStep])
  exact ⟨h.1, h.2.1⟩

/-- Witness for C10: a run aborted by a failing option leaves the state
occupied, and a later Run on it fails with the reentrancy error. -/
theorem config_failure_wedges_w :
    Running ⟨some 4, some 4, defaultStep, 0, 0, 0, 0, 0, 0, 0⟩ = true ∧
    Run [] (fun _ => []) (fun _ => 0) 3 7 ⟨some 4, some 4, defaultStep, 0, 0, 0, 0, 0, 0, 0⟩ =
      (.err "loop.Run: already running"
        ⟨some 4, some 4, defaultStep, 0, 0, 0, 0, 0, 0, 0⟩, []) := by
  have h := config_failure_wedges [fun _ => OptAct.fail "boom"] (fun _ => []) (fun _ => 0)
    1 4 loopInit ⟨some 4, some 4, defaultStep, 0, 0, 0, 0, 0, 0, 0⟩ "boom"
    [Ev.enter 4, Ev.react 4, Ev.update 4] rfl rfl
  exact ⟨h.1, h.2 [] (fun _ => []) (fun _ => 0) 3 7⟩

end Loop
